import Mathlib

/-!
Shallow embedding of the concurrent fetch-retry-aggregate-upload pipeline of
src/sensex_expiry_downloader.py (the CONFIG block, get_candles_with_retry,
download_symbol, send_zip_to_telegram and the pipeline part of main), with
proofs about the embedded definitions.
-/

namespace SensexDL

/-- Propositional equality of Except values is decidable componentwise; used
to evaluate the embedded functions on concrete inputs. -/
instance {ε α : Type} [DecidableEq ε] [DecidableEq α] : DecidableEq (Except ε α) := fun x y =>
  match x, y with
  | .error a, .error b =>
    if h : a = b then isTrue (congrArg Except.error h)
    else isFalse fun hc => h (Except.error.inj hc)
  | .ok a, .ok b =>
    if h : a = b then isTrue (congrArg Except.ok h)
    else isFalse fun hc => h (Except.ok.inj hc)
  | .error _, .ok _ => isFalse fun hc => Except.noConfusion hc
  | .ok _, .error _ => isFalse fun hc => Except.noConfusion hc

/-- CONFIG, source line 70. -/
def MAX_RETRIES : Nat := 3

/-- CONFIG, source line 71. -/
def MAX_WORKERS : Nat := 3

/-- One data row returned by the candle API.  Field values are abstracted as
strings; only the arity (six fields: Date, Open, High, Low, Close, Volume)
matters to the control flow of the program. -/
abbrev Row := List String

/-- A candle-data response dictionary: its status flag and its data rows.
A Python falsy return value (None, empty dict) is modelled as Option.none at
the call site, so CandleResp itself is always a truthy dictionary. -/
structure CandleResp where
  status : Bool
  data : List Row
deriving DecidableEq

/-- Result of one smart.getCandleData call: Except.error means the call raised
an exception, Except.ok none means it returned a falsy value, and
Except.ok (some r) means it returned the (truthy) response r. -/
abbrev FetchResult := Except Unit (Option CandleResp)

/-- Behaviour of the external data source for one task: what the k-th call
(0-based) to smart.getCandleData returns. -/
abbrev FetchOracle := Nat → FetchResult

/-- Observable behaviour of one run of get_candles_with_retry: the value it
returns, how many calls to the source it made, and the sleep durations it
performed (in seconds), in order. -/
structure RetryTrace where
  result : Option CandleResp
  attempts : Nat
  sleeps : List Nat
deriving DecidableEq

/-- Loop of get_candles_with_retry (source lines 235-242), with the loop
index i and the remaining iterations as fuel.  Each iteration calls the
source once; a truthy response with a truthy status is returned immediately;
otherwise (falsy return value, falsy status flag, or an exception, the
except branch) the worker sleeps (i+1)*5 seconds and the loop continues. -/
def retryLoop (oracle : FetchOracle) : Nat → Nat → RetryTrace
  | _, 0 => ⟨none, 0, []⟩
  | i, fuel + 1 =>
    match oracle i with
    | .ok (some r) =>
      if r.status then ⟨some r, 1, []⟩
      else
        ⟨(retryLoop oracle (i + 1) fuel).result,
         (retryLoop oracle (i + 1) fuel).attempts + 1,
         (i + 1) * 5 :: (retryLoop oracle (i + 1) fuel).sleeps⟩
    | .ok none =>
      ⟨(retryLoop oracle (i + 1) fuel).result,
       (retryLoop oracle (i + 1) fuel).attempts + 1,
       (i + 1) * 5 :: (retryLoop oracle (i + 1) fuel).sleeps⟩
    | .error _ =>
      ⟨(retryLoop oracle (i + 1) fuel).result,
       (retryLoop oracle (i + 1) fuel).attempts + 1,
       (i + 1) * 5 :: (retryLoop oracle (i + 1) fuel).sleeps⟩

/-- get_candles_with_retry (source lines 234-243): runs the loop for
MAX_RETRIES iterations starting at index 0; if no attempt returned a
status-true response the function returns None. -/
def get_candles_with_retry (oracle : FetchOracle) : RetryTrace :=
  retryLoop oracle 0 MAX_RETRIES

/-- An attempt that does not make get_candles_with_retry return: the call
raised, returned a falsy value, or returned a response with a falsy status. -/
def attemptFails : FetchResult → Bool
  | .error _ => true
  | .ok none => true
  | .ok (some r) => !r.status

/-- The bytes written into the spreadsheet buffer for one symbol, modelled as
the rows they were built from. -/
abbrev Payload := List Row

/-- A task handed to download_symbol: the trading symbol of the row and the
behaviour of the external source for this task.  The token and the date
range only parameterize the query string; they do not influence the control
flow that is modelled. -/
structure Task where
  symbol : String
  oracle : FetchOracle

instance : Inhabited Task := ⟨⟨"", fun _ => .error ()⟩⟩

/-- The value a task resolves to: (symbol, payload-or-None, reason-or-None). -/
abbrev Outcome := String × Option Payload × Option String

/-- download_symbol (source lines 246-271).  Except.error models an exception
escaping the function: there is no try/except in download_symbol itself, and
pd.DataFrame(r.data, columns=[six names]) raises ValueError when some row
does not have exactly six fields.  If the retried fetch produced no
status-true response, or produced one with falsy (empty) data, the function
returns (symbol, None, "No data"). -/
def download_symbol (t : Task) : Except String Outcome :=
  match (get_candles_with_retry t.oracle).result with
  | some r =>
    if r.data.isEmpty then
      .ok (t.symbol, none, some "No data")
    else
      if r.data.all fun row => row.length = 6 then
        .ok (t.symbol, some r.data, none)
      else
        .error "ValueError: columns mismatch"
  | none => .ok (t.symbol, none, some "No data")

/-- The shared pipeline state of main: the success_list, failed_list and
failed_details globals (source lines 81-83) and the named entries of the
in-memory zip archive (source lines 296-298, 305-306). -/
structure RunState where
  success_list : List String
  failed_list : List String
  failed_details : List (String × Option String)
  zipEntries : List (String × Payload)
deriving DecidableEq

/-- The state before the loop: all three lists empty and an empty archive. -/
def initState : RunState := ⟨[], [], [], []⟩

/-- Body of the for-loop of main (source lines 303-310): a success appends
one entry named symbol + ".xlsx" to the zip and the symbol to success_list;
a failure appends the symbol to failed_list and (symbol, err) to
failed_details. -/
def recordOutcome (st : RunState) (o : Outcome) : RunState :=
  match o with
  | (symbol, some data, _) =>
    { st with
      zipEntries := st.zipEntries ++ [(symbol ++ ".xlsx", data)]
      success_list := st.success_list ++ [symbol] }
  | (symbol, none, err) =>
    { st with
      failed_list := st.failed_list ++ [symbol]
      failed_details := st.failed_details ++ [(symbol, err)] }

/-- The ex.map consumption loop of main (source lines 302-310).
concurrent.futures.Executor.map yields results in input order; an exception
raised inside download_symbol re-raises at the yield and aborts the loop,
which the Except.error branch models. -/
def pipelineLoop (st : RunState) : List Task → Except String RunState
  | [] => .ok st
  | t :: rest =>
    match download_symbol t with
    | .error e => .error e
    | .ok o => pipelineLoop (recordOutcome st o) rest

/-- The pipeline phase of main plus its upload decision (source lines
296-317): the final RunState together with whether send_zip_to_telegram was
invoked, which the source guards with: if success_list. -/
def runMain (tasks : List Task) : Except String (RunState × Bool) :=
  match pipelineLoop initState tasks with
  | .error e => .error e
  | .ok st => .ok (st, !st.success_list.isEmpty)

/-- The outcome of each task in order, when no task raises; none as soon as
some download_symbol raises. -/
def outcomesOf : List Task → Option (List Outcome)
  | [] => some []
  | t :: rest =>
    match download_symbol t, outcomesOf rest with
    | .ok o, some os => some (o :: os)
    | _, _ => none

/-- Symbols of the outcomes that carry a payload, in order. -/
def successesOf : List Outcome → List String
  | [] => []
  | (s, some _, _) :: rest => s :: successesOf rest
  | (_, none, _) :: rest => successesOf rest

/-- Symbols of the outcomes that carry no payload, in order. -/
def failuresOf : List Outcome → List String
  | [] => []
  | (_, some _, _) :: rest => failuresOf rest
  | (s, none, _) :: rest => s :: failuresOf rest

/-- The archive entries produced by a list of outcomes, in order. -/
def entriesOf : List Outcome → List (String × Payload)
  | [] => []
  | (s, some d, _) :: rest => (s ++ ".xlsx", d) :: entriesOf rest
  | (_, none, _) :: rest => entriesOf rest

/-- The symbol of every outcome, in order. -/
def symbolsOf (os : List Outcome) : List String := os.map fun o => o.1

/-- The retry configuration mounted on the upload session (source line 212):
Retry with total, backoff_factor and status_forcelist. -/
structure RetryConf where
  total : Nat
  backoff_factor : Nat
  status_forcelist : List Nat
deriving DecidableEq

/-- The configuration used by send_zip_to_telegram, source line 212:
Retry with total 5, backoff_factor 2 and status_forcelist 429, 500, 502,
503. -/
def telegramRetry : RetryConf := ⟨5, 2, [429, 500, 502, 503]⟩

/-- One attempt of the upload transfer as the mounted adapter sees it:
either the connection attempt itself failed (a connection error, before any
response exists) or the endpoint answered with a status code. -/
inductive UploadAttempt
  | connError
  | status (code : Nat)
deriving DecidableEq

/-- urllib3 Retry.DEFAULT_ALLOWED_METHODS: the request methods eligible for
status-based retries.  POST is absent from the set. -/
def DEFAULT_ALLOWED_METHODS : List String :=
  ["HEAD", "GET", "PUT", "DELETE", "OPTIONS", "TRACE"]

/-- urllib3 Retry._is_method_retryable under the default allowed_methods,
which source line 212 leaves in place (it sets only total, backoff_factor
and status_forcelist). -/
def is_method_retryable (method : String) : Bool :=
  decide (method ∈ DEFAULT_ALLOWED_METHODS)

/-- urllib3 Retry.is_retry for a received response: a retry is initiated
only if the request method is in allowed_methods and the status code is in
status_forcelist. -/
def is_retry (conf : RetryConf) (method : String) (code : Nat) : Bool :=
  is_method_retryable method && decide (code ∈ conf.status_forcelist)

/-- Whether the adapter retries after an attempt: a connection error always
consumes retry budget, irrespective of the method; a status response is
retried only when is_retry accepts it. -/
def retriedAttempt (conf : RetryConf) (method : String) : UploadAttempt → Bool
  | .connError => true
  | .status s => is_retry conf method s

/-- Model of the urllib3 Retry machinery driving the request issued through
the mounted adapter (source lines 211-221): attempt number i (0-based)
observes oracle i.  An attempt on which retriedAttempt holds consumes one
unit of the retry budget (the budget is Retry total and counts retries
beyond the first attempt) and the request is re-issued; exhausting the
budget raises MaxRetryError, modelled as Except.error.  A status response
that is_retry rejects is handed back to the caller.  The pair's second
component is the total number of attempts performed. -/
def runRetrySession (conf : RetryConf) (method : String) (oracle : Nat → UploadAttempt) :
    Nat → Nat → Except Unit Nat × Nat
  | 0, i =>
    match oracle i with
    | .connError => (.error (), i + 1)
    | .status s =>
      if is_retry conf method s then (.error (), i + 1) else (.ok s, i + 1)
  | budget + 1, i =>
    match oracle i with
    | .connError => runRetrySession conf method oracle budget (i + 1)
    | .status s =>
      if is_retry conf method s then runRetrySession conf method oracle budget (i + 1)
      else (.ok s, i + 1)

/-- The session.post call of send_zip_to_telegram: a POST request through
the configured session, starting with the full retry budget at attempt
index 0. -/
def sessionPost (conf : RetryConf) (oracle : Nat → UploadAttempt) : Except Unit Nat × Nat :=
  runRetrySession conf "POST" oracle conf.total 0

/-- Model of urllib3 Retry.get_backoff_time before the n-th retry of a run
(n counts consecutive previous failures): zero before the first retry and
backoff_factor * 2 ^ (n - 1) afterwards, capped at the default backoff
maximum of 120 seconds. -/
def get_backoff_time (conf : RetryConf) (n : Nat) : Nat :=
  if n ≤ 1 then 0 else min 120 (conf.backoff_factor * 2 ^ (n - 1))

/-- Lifecycle events of the temporary file used by send_zip_to_telegram. -/
inductive TmpEv
  | create
  | remove
deriving DecidableEq

/-- send_zip_to_telegram (source lines 203-228).  The NamedTemporaryFile
with delete False is written and closed (create); the try block posts the
archive through the retrying session and calls raise_for_status, which
raises for any status of 400 or above; except Exception turns every raise
(connection errors, MaxRetryError after the retry budget is exhausted,
raise_for_status) into the return value False; the finally block removes
the temporary file (remove) on every one of those exits.  Returns the
delivered flag and the ordered lifecycle events of the temporary file. -/
def send_zip_to_telegram (oracle : Nat → UploadAttempt) : Bool × List TmpEv :=
  match sessionPost telegramRetry oracle with
  | (.error _, _) => (false, [.create, .remove])
  | (.ok s, _) =>
    if 400 ≤ s then (false, [.create, .remove]) else (true, [.create, .remove])

/-- What the coordinator receives for one task: either the outcome or the
exception re-raised by future.result. -/
abbrev DLResult := Except String Outcome

/-- The futures table before any worker has completed. -/
def emptyTable : Nat → Option DLResult := fun _ => none

/-- Concurrent execution of the worker pool: workers complete the tasks in
the order given by the schedule (a list of task indices, representing the
interleaving the ThreadPoolExecutor happens to produce); completing index j
stores the result of download_symbol for task j in the futures table.  Each
task's result depends only on that task, not on the schedule. -/
def fillTable (tasks : List Task) : List Nat → (Nat → Option DLResult) → Nat → Option DLResult
  | [], tb => tb
  | j :: rest, tb =>
    fillTable tasks rest (Function.update tb j (some (download_symbol (tasks.getD j default))))

/-- What ex.map yields to the coordinator: the completed results read back
in input order 0, 1, ..., regardless of the completion schedule. -/
def concurrentResults (tasks : List Task) (schedule : List Nat) : List DLResult :=
  (List.range tasks.length).map fun i =>
    (fillTable tasks schedule emptyTable i).getD (.error "pending")

/-- The coordinator loop of main consuming already-computed results. -/
def pipelineLoopResults (st : RunState) : List DLResult → Except String RunState
  | [] => .ok st
  | .error e :: _ => .error e
  | .ok o :: rest => pipelineLoopResults (recordOutcome st o) rest

/-- The pipeline of main executed with the worker pool under a given
completion schedule, down to the upload decision. -/
def concurrentMain (tasks : List Task) (schedule : List Nat) : Except String (RunState × Bool) :=
  match pipelineLoopResults initState (concurrentResults tasks schedule) with
  | .error e => .error e
  | .ok st => .ok (st, !st.success_list.isEmpty)

/-- The shared containers of the run. -/
inductive Container
  | successes
  | failures
  | failedDetails
  | archive
deriving DecidableEq

/-- Synchronization-relevant events: acquiring or releasing a named lock,
or mutating one of the shared containers. -/
inductive SyncEv
  | acquire (lock : String)
  | release (lock : String)
  | mutate (c : Container)
deriving DecidableEq

/-- Events emitted by the loop body of main for one outcome (source lines
303-310).  The source acquires no lock here: zip_lock and counter_lock are
declared at lines 84-85 but never acquired anywhere in the file, so the
emitted events are plain mutations. -/
def recordEvents : Outcome → List SyncEv
  | (_, some _, _) => [.mutate .archive, .mutate .successes]
  | (_, none, _) => [.mutate .failures, .mutate .failedDetails]

/-- The event trace of the coordinator consuming a list of outcomes. -/
def coordTrace : List Outcome → List SyncEv
  | [] => []
  | o :: rest => recordEvents o ++ coordTrace rest

/-- Whether an event is a container mutation. -/
def isMutate : SyncEv → Bool
  | .mutate _ => true
  | _ => false

/-- Number of locks held after a list of events, starting from n held. -/
def heldAfterAux (n : Nat) : List SyncEv → Nat
  | [] => n
  | .acquire _ :: rest => heldAfterAux (n + 1) rest
  | .release _ :: rest => heldAfterAux (n - 1) rest
  | .mutate _ :: rest => heldAfterAux n rest

/-- Number of locks held after a list of events. -/
def heldAfter (evs : List SyncEv) : Nat := heldAfterAux 0 evs

/-- Every container mutation in the trace happens while at least one lock is
held, which is what running inside a critical section means for the trace. -/
abbrev mutationsGuarded (evs : List SyncEv) : Prop :=
  ∀ k, k < evs.length → isMutate (evs.getD k (.release "")) = true →
    0 < heldAfter (evs.take k)

/-- The synchronization trace of a whole run, when no task raises. -/
def runSyncTrace (tasks : List Task) : Option (List SyncEv) :=
  match outcomesOf tasks with
  | some os => some (coordTrace os)
  | none => none

/-- A sample row with the six expected fields. -/
def row6 : Row := ["2025-01-01 09:15", "100", "101", "99", "100.5", "0"]

/-- A source that always answers with a status-true response holding one
well-formed row. -/
def okOracle : FetchOracle := fun _ => .ok (some ⟨true, [row6]⟩)

/-- A source whose calls always raise. -/
def errOracle : FetchOracle := fun _ => .error ()

/-- A source that always answers with a status-true response holding no
rows. -/
def emptyOracle : FetchOracle := fun _ => .ok (some ⟨true, []⟩)

/-- A source that answers with a status-true response whose single row has
only two fields instead of six. -/
def badOracle : FetchOracle := fun _ => .ok (some ⟨true, [["2025-01-01 09:15", "100"]]⟩)

/-- An endpoint that always answers 500. -/
def all500 : Nat → UploadAttempt := fun _ => .status 500

/-- An endpoint whose connection always fails. -/
def allConnErr : Nat → UploadAttempt := fun _ => .connError

/-- A task that succeeds on its first attempt. -/
def tSucc : Task := ⟨"SENSEX2580000CE", okOracle⟩

/-- A task whose every fetch raises. -/
def tFail : Task := ⟨"SENSEX2580000PE", errOracle⟩

/-- A task whose fetch returns schema-violating rows. -/
def badTask : Task := ⟨"SENSEX2580100CE", badOracle⟩

/-- A task whose fetch returns a status-true but empty response. -/
def taskEmpty : Task := ⟨"SENSEX2580100PE", emptyOracle⟩

/-- A task over errOracle used to witness the exhausted-retry path. -/
def errTask : Task := ⟨"SENSEX2580200CE", errOracle⟩

/-- A two-task run: one success, one failure. -/
def demoTasks : List Task := [tSucc, tFail]

/-- The final state of the two-task run. -/
def demoFinal : RunState :=
  ⟨["SENSEX2580000CE"], ["SENSEX2580000PE"],
   [("SENSEX2580000PE", some "No data")],
   [("SENSEX2580000CE.xlsx", [row6])]⟩

/-- The state after the first task of the two-task run. -/
def midState : RunState :=
  ⟨["SENSEX2580000CE"], [], [], [("SENSEX2580000CE.xlsx", [row6])]⟩

/-- The coordinator trace of the one-task run over tSucc. -/
def succTrace : List SyncEv := [.mutate .archive, .mutate .successes]

/-- A failing attempt makes the loop sleep (i+1)*5 seconds and continue with
the next index and one unit of fuel less. -/
theorem retryLoop_fail (oracle : FetchOracle) (i fuel : Nat)
    (h : attemptFails (oracle i) = true) :
    retryLoop oracle i (fuel + 1) =
      ⟨(retryLoop oracle (i + 1) fuel).result,
       (retryLoop oracle (i + 1) fuel).attempts + 1,
       (i + 1) * 5 :: (retryLoop oracle (i + 1) fuel).sleeps⟩ := by
  cases ho : oracle i with
  | error e => simp [retryLoop, ho]
  | ok o =>
    cases o with
    | none => simp [retryLoop, ho]
    | some r =>
      have hs : r.status = false := by
        rw [ho] at h
        simpa [attemptFails] using h
      simp [retryLoop, ho, hs]

/-- When every one of the MAX_RETRIES attempts fails, get_candles_with_retry
makes exactly three calls, sleeps 5, 10 and 15 seconds, and returns None. -/
theorem get_candles_fail_all (oracle : FetchOracle)
    (hf : ∀ i, i < MAX_RETRIES → attemptFails (oracle i) = true) :
    get_candles_with_retry oracle = ⟨none, 3, [5, 10, 15]⟩ := by
  have h0 := hf 0 (by decide)
  have h1 := hf 1 (by decide)
  have h2 := hf 2 (by decide)
  have e2 : retryLoop oracle 2 1 = ⟨none, 1, [15]⟩ := by
    rw [retryLoop_fail oracle 2 0 h2]
    simp [retryLoop]
  have e1 : retryLoop oracle 1 2 = ⟨none, 2, [10, 15]⟩ := by
    rw [retryLoop_fail oracle 1 1 h1, e2]
  have e0 : retryLoop oracle 0 3 = ⟨none, 3, [5, 10, 15]⟩ := by
    rw [retryLoop_fail oracle 0 2 h0, e1]
  exact e0

/-- A response handed back by the retry loop came out of some call to the
source and carries a true status flag. -/
theorem retryLoop_result_some (oracle : FetchOracle) :
    ∀ fuel i r, (retryLoop oracle i fuel).result = some r →
      (∃ j, oracle j = .ok (some r)) ∧ r.status = true := by
  intro fuel
  induction fuel with
  | zero => intro i r h; simp [retryLoop] at h
  | succ n ih =>
    intro i r h
    cases ho : oracle i with
    | error e =>
      rw [show retryLoop oracle i (n + 1) =
            ⟨(retryLoop oracle (i + 1) n).result,
             (retryLoop oracle (i + 1) n).attempts + 1,
             (i + 1) * 5 :: (retryLoop oracle (i + 1) n).sleeps⟩ from by
          simp [retryLoop, ho]] at h
      exact ih (i + 1) r h
    | ok o =>
      cases o with
      | none =>
        rw [show retryLoop oracle i (n + 1) =
              ⟨(retryLoop oracle (i + 1) n).result,
               (retryLoop oracle (i + 1) n).attempts + 1,
               (i + 1) * 5 :: (retryLoop oracle (i + 1) n).sleeps⟩ from by
            simp [retryLoop, ho]] at h
        exact ih (i + 1) r h
      | some r0 =>
        by_cases hs : r0.status
        · have : (retryLoop oracle i (n + 1)).result = some r0 := by
            simp [retryLoop, ho, hs]
          rw [this] at h
          cases h
          exact ⟨⟨i, ho⟩, hs⟩
        · rw [show retryLoop oracle i (n + 1) =
                ⟨(retryLoop oracle (i + 1) n).result,
                 (retryLoop oracle (i + 1) n).attempts + 1,
                 (i + 1) * 5 :: (retryLoop oracle (i + 1) n).sleeps⟩ from by
              simp [retryLoop, ho, hs]] at h
          exact ih (i + 1) r h

/-- A non-raising download resolves to the symbol of its own task. -/
theorem download_symbol_fst (t : Task) (o : Outcome)
    (h : download_symbol t = .ok o) : o.1 = t.symbol := by
  unfold download_symbol at h
  split at h
  next r _ =>
    split at h
    · cases h; rfl
    · split at h
      · cases h; rfl
      · cases h
  next => cases h; rfl

/-- If the coordinator loop completes, every task produced an outcome and
the final state is the fold of recordOutcome over those outcomes. -/
theorem pipelineLoop_ok :
    ∀ (tasks : List Task) (st st' : RunState), pipelineLoop st tasks = .ok st' →
      ∃ os, outcomesOf tasks = some os ∧ st' = os.foldl recordOutcome st := by
  intro tasks
  induction tasks with
  | nil =>
    intro st st' h
    refine ⟨[], rfl, ?_⟩
    cases h
    rfl
  | cons t rest ih =>
    intro st st' h
    unfold pipelineLoop at h
    cases hd : download_symbol t with
    | error e => rw [hd] at h; cases h
    | ok o =>
      rw [hd] at h
      obtain ⟨os, hos, hfold⟩ := ih _ _ h
      exact ⟨o :: os, by simp [outcomesOf, hd, hos], by simpa using hfold⟩

/-- The success_list after the fold is the accumulated one plus the symbols
of the payload-carrying outcomes. -/
theorem foldl_record_success :
    ∀ (os : List Outcome) (st : RunState),
      (os.foldl recordOutcome st).success_list = st.success_list ++ successesOf os := by
  intro os
  induction os with
  | nil => intro st; simp [successesOf]
  | cons o rest ih =>
    intro st
    rcases o with ⟨s, d, e⟩
    cases d with
    | none => simp [recordOutcome, successesOf, ih]
    | some p => simp [recordOutcome, successesOf, ih]

/-- The failed_list after the fold is the accumulated one plus the symbols
of the payload-free outcomes. -/
theorem foldl_record_failed :
    ∀ (os : List Outcome) (st : RunState),
      (os.foldl recordOutcome st).failed_list = st.failed_list ++ failuresOf os := by
  intro os
  induction os with
  | nil => intro st; simp [failuresOf]
  | cons o rest ih =>
    intro st
    rcases o with ⟨s, d, e⟩
    cases d with
    | none => simp [recordOutcome, failuresOf, ih]
    | some p => simp [recordOutcome, failuresOf, ih]

/-- The archive after the fold is the accumulated one plus one named entry
per payload-carrying outcome. -/
theorem foldl_record_entries :
    ∀ (os : List Outcome) (st : RunState),
      (os.foldl recordOutcome st).zipEntries = st.zipEntries ++ entriesOf os := by
  intro os
  induction os with
  | nil => intro st; simp [entriesOf]
  | cons o rest ih =>
    intro st
    rcases o with ⟨s, d, e⟩
    cases d with
    | none => simp [recordOutcome, entriesOf, ih]
    | some p => simp [recordOutcome, entriesOf, ih]

/-- Every symbol lands in exactly one of the two partitions. -/
theorem count_partition (os : List Outcome) (s : String) :
    (successesOf os).count s + (failuresOf os).count s = (symbolsOf os).count s := by
  induction os with
  | nil => simp [successesOf, failuresOf, symbolsOf]
  | cons o rest ih =>
    rcases o with ⟨s0, d, e⟩
    cases d with
    | none =>
      by_cases hs : s0 = s <;>
        simp [successesOf, failuresOf, symbolsOf, List.count_cons, hs] at ih ⊢ <;>
        omega
    | some p =>
      by_cases hs : s0 = s <;>
        simp [successesOf, failuresOf, symbolsOf, List.count_cons, hs] at ih ⊢ <;>
        omega

/-- The two partitions cover all outcomes. -/
theorem length_partition (os : List Outcome) :
    (successesOf os).length + (failuresOf os).length = os.length := by
  induction os with
  | nil => simp [successesOf, failuresOf]
  | cons o rest ih =>
    rcases o with ⟨s0, d, e⟩
    cases d with
    | none => simp [successesOf, failuresOf]; omega
    | some p => simp [successesOf, failuresOf]; omega

/-- When no task raises, the outcome symbols are the task symbols, in
order. -/
theorem outcomes_symbols :
    ∀ (tasks : List Task) (os : List Outcome), outcomesOf tasks = some os →
      symbolsOf os = tasks.map Task.symbol := by
  intro tasks
  induction tasks with
  | nil =>
    intro os h
    cases h
    rfl
  | cons t rest ih =>
    intro os h
    unfold outcomesOf at h
    cases hd : download_symbol t with
    | error e => rw [hd] at h; cases h
    | ok o =>
      rw [hd] at h
      cases hrest : outcomesOf rest with
      | none => rw [hrest] at h; cases h
      | some os0 =>
        rw [hrest] at h
        cases h
        simp [symbolsOf, List.map_cons] at ih ⊢
        exact ⟨download_symbol_fst t o hd, ih os0 hrest⟩

/-- The archive entry names are exactly the success symbols suffixed with
".xlsx", in order. -/
theorem entries_names (os : List Outcome) :
    (entriesOf os).map Prod.fst = (successesOf os).map (fun s => s ++ ".xlsx") := by
  induction os with
  | nil => simp [entriesOf, successesOf]
  | cons o rest ih =>
    rcases o with ⟨s0, d, e⟩
    cases d with
    | none => simp [entriesOf, successesOf, ih]
    | some p => simp [entriesOf, successesOf, ih]

/-- Suffixing ".xlsx" is injective on symbols. -/
theorem append_xlsx_inj : Function.Injective fun s : String => s ++ ".xlsx" := by
  intro a b h
  rcases a with ⟨la⟩
  rcases b with ⟨lb⟩
  have h2 : la ++ ".xlsx".data = lb ++ ".xlsx".data := congrArg String.data h
  have h3 : la = lb := List.append_cancel_right h2
  rw [h3]

/-- Unfolding runMain: the loop completed and the upload flag is the
non-emptiness of success_list. -/
theorem runMain_ok (tasks : List Task) (st : RunState) (up : Bool)
    (h : runMain tasks = .ok (st, up)) :
    pipelineLoop initState tasks = .ok st ∧ up = !st.success_list.isEmpty := by
  unfold runMain at h
  cases hp : pipelineLoop initState tasks with
  | error e => rw [hp] at h; cases h
  | ok st0 =>
    rw [hp] at h
    cases h
    exact ⟨rfl, rfl⟩

/-- The shape of the state a completed run leaves behind. -/
theorem runMain_state (tasks : List Task) (st : RunState) (up : Bool)
    (h : runMain tasks = .ok (st, up)) :
    ∃ os, outcomesOf tasks = some os ∧
      st.success_list = successesOf os ∧
      st.failed_list = failuresOf os ∧
      st.zipEntries = entriesOf os ∧
      symbolsOf os = tasks.map Task.symbol ∧
      os.length = tasks.length ∧
      up = !st.success_list.isEmpty := by
  obtain ⟨hl, hu⟩ := runMain_ok tasks st up h
  obtain ⟨os, hos, hfold⟩ := pipelineLoop_ok tasks initState st hl
  have hsym := outcomes_symbols tasks os hos
  have hlen : os.length = tasks.length := by
    have := congrArg List.length hsym
    simpa [symbolsOf] using this
  refine ⟨os, hos, ?_, ?_, ?_, hsym, hlen, hu⟩
  · rw [hfold, foldl_record_success]; rfl
  · rw [hfold, foldl_record_failed]; rfl
  · rw [hfold, foldl_record_entries]; rfl

/-- With pairwise-distinct symbols the two partitions are duplicate-free and
disjoint. -/
theorem nodup_partition (os : List Outcome) (hn : (symbolsOf os).Nodup) :
    (successesOf os).Nodup ∧ (failuresOf os).Nodup ∧
    ∀ s, s ∈ successesOf os → s ∉ failuresOf os := by
  have hcount : ∀ s, (symbolsOf os).count s ≤ 1 := List.nodup_iff_count_le_one.mp hn
  refine ⟨?_, ?_, ?_⟩
  · refine List.nodup_iff_count_le_one.mpr fun s => ?_
    have := count_partition os s
    have := hcount s
    omega
  · refine List.nodup_iff_count_le_one.mpr fun s => ?_
    have := count_partition os s
    have := hcount s
    omega
  · intro s hsucc hfail
    have h1 : 0 < (successesOf os).count s := List.count_pos_iff.mpr hsucc
    have h2 : 0 < (failuresOf os).count s := List.count_pos_iff.mpr hfail
    have := count_partition os s
    have := hcount s
    omega

/-- Counting an entry name among names built by suffixing ".xlsx". -/
theorem count_map_xlsx (l : List String) (s : String) :
    (l.map (fun x => x ++ ".xlsx")).count (s ++ ".xlsx") = l.count s := by
  induction l with
  | nil => simp
  | cons a l ih =>
    by_cases ha : a = s
    · simp [List.count_cons, ha, ih]
    · have hne : ¬(a ++ ".xlsx" = s ++ ".xlsx") := fun hc => ha (append_xlsx_inj hc)
      simp [List.count_cons, ha, hne, ih]

/-- C1: for every run over tasks with pairwise-distinct symbols, once the
pipeline loop completes, the lengths of success_list and failed_list sum to
the number of tasks, no symbol appears in both lists, and no symbol is
recorded twice in either list. -/
theorem C1_run_partition (tasks : List Task) (st : RunState) (up : Bool)
    (hok : runMain tasks = .ok (st, up))
    (hn : (tasks.map Task.symbol).Nodup) :
    st.success_list.length + st.failed_list.length = tasks.length ∧
    (∀ s, s ∈ st.success_list → s ∉ st.failed_list) ∧
    st.success_list.Nodup ∧ st.failed_list.Nodup := by
  obtain ⟨os, _, hsucc, hfail, _, hsym, hlen, _⟩ := runMain_state tasks st up hok
  have hn2 : (symbolsOf os).Nodup := by rw [hsym]; exact hn
  obtain ⟨hnd1, hnd2, hdisj⟩ := nodup_partition os hn2
  refine ⟨?_, ?_, ?_, ?_⟩
  · rw [hsucc, hfail, ← hlen]
    exact length_partition os
  · intro s hs
    rw [hsucc] at hs
    rw [hfail]
    exact hdisj s hs
  · rw [hsucc]; exact hnd1
  · rw [hfail]; exact hnd2

/-- C1 witness: the two-task demo run. -/
theorem C1_witness :
    runMain demoTasks = .ok (demoFinal, true) ∧
    (demoTasks.map Task.symbol).Nodup ∧
    (demoFinal.success_list.length + demoFinal.failed_list.length = demoTasks.length ∧
     (∀ s, s ∈ demoFinal.success_list → s ∉ demoFinal.failed_list) ∧
     demoFinal.success_list.Nodup ∧ demoFinal.failed_list.Nodup) :=
  ⟨by decide, by decide,
   C1_run_partition demoTasks demoFinal true (by decide) (by decide)⟩

/-- C2: a task whose fetch fails on every attempt is attempted exactly
MAX_RETRIES times; the k-th failed attempt (1-based) is followed by a sleep
of k*5 seconds, so the delays are non-decreasing in the attempt index, and
the task resolves to the Failure outcome (symbol, None, "No data"). -/
theorem C2_retry_exhaustion (oracle : FetchOracle)
    (hf : ∀ i, i < MAX_RETRIES → attemptFails (oracle i) = true) :
    (get_candles_with_retry oracle).attempts = MAX_RETRIES ∧
    (get_candles_with_retry oracle).sleeps = [5, 10, 15] ∧
    (∀ k, k < (get_candles_with_retry oracle).sleeps.length →
      (get_candles_with_retry oracle).sleeps.getD k 0 = (k + 1) * 5) ∧
    List.Chain' (· ≤ ·) (get_candles_with_retry oracle).sleeps ∧
    (∀ t : Task, t.oracle = oracle →
      download_symbol t = .ok (t.symbol, none, some "No data")) := by
  have key := get_candles_fail_all oracle hf
  refine ⟨by rw [key]; rfl, by rw [key], ?_, ?_, ?_⟩
  · rw [key]; decide
  · rw [key]
    exact List.chain'_cons.mpr ⟨by norm_num,
      List.chain'_cons.mpr ⟨by norm_num, List.chain'_singleton 15⟩⟩
  · intro t ht
    simp [download_symbol, ht, key]

/-- C2 witness: a source whose calls always raise. -/
theorem C2_witness :
    (∀ i, i < MAX_RETRIES → attemptFails (errOracle i) = true) ∧
    (get_candles_with_retry errOracle).attempts = MAX_RETRIES ∧
    (get_candles_with_retry errOracle).sleeps = [5, 10, 15] ∧
    download_symbol errTask = .ok (errTask.symbol, none, some "No data") :=
  ⟨by decide,
   (C2_retry_exhaustion errOracle (by decide)).1,
   (C2_retry_exhaustion errOracle (by decide)).2.1,
   (C2_retry_exhaustion errOracle (by decide)).2.2.2.2 errTask rfl⟩

/-- C3 counterexample: a status-true response whose row has two fields
instead of six makes download_symbol raise (the pd.DataFrame constructor),
so the function does not return a Failure outcome on this failure path. -/
theorem C3_counterexample :
    download_symbol badTask = .error "ValueError: columns mismatch" := by
  decide

/-- C3 amended: download_symbol never raises provided every status-true
response of the source carries only rows with the six expected fields; under
that proviso every path returns an outcome for the task's own symbol, and
any payload-free outcome carries the reason "No data". -/
theorem C3_no_raise_when_schema_ok (t : Task)
    (hs : ∀ i r, t.oracle i = .ok (some r) → r.status = true →
      ∀ row ∈ r.data, row.length = 6) :
    ∃ o : Outcome, download_symbol t = .ok o ∧ o.1 = t.symbol ∧
      (o.2.1 = none → o.2.2 = some "No data") := by
  unfold download_symbol
  cases hres : (get_candles_with_retry t.oracle).result with
  | none => exact ⟨(t.symbol, none, some "No data"), rfl, rfl, fun _ => rfl⟩
  | some r =>
    obtain ⟨⟨j, hj⟩, hst⟩ := retryLoop_result_some t.oracle MAX_RETRIES 0 r hres
    by_cases he : r.data.isEmpty
    · refine ⟨(t.symbol, none, some "No data"), ?_, rfl, fun _ => rfl⟩
      simp [he]
    · have hall : r.data.all (fun row => row.length = 6) = true := by
        rw [List.all_eq_true]
        intro row hrow
        simpa using hs j r hj hst row hrow
      refine ⟨(t.symbol, some r.data, none), ?_, rfl, fun hc => Option.noConfusion hc⟩
      simp [he, hall]

/-- C3 witness: the schema-respecting demo source. -/
theorem C3_witness :
    (∀ i r, tSucc.oracle i = .ok (some r) → r.status = true →
      ∀ row ∈ r.data, row.length = 6) ∧
    (∃ o : Outcome, download_symbol tSucc = .ok o ∧ o.1 = tSucc.symbol ∧
      (o.2.1 = none → o.2.2 = some "No data")) := by
  have hs : ∀ i r, tSucc.oracle i = .ok (some r) → r.status = true →
      ∀ row ∈ r.data, row.length = 6 := by
    intro i r h _ row hrow
    have h2 : (Except.ok (some (⟨true, [row6]⟩ : CandleResp)) : FetchResult) =
        .ok (some r) := h
    have h3 : (⟨true, [row6]⟩ : CandleResp) = r :=
      Option.some.inj (Except.ok.inj h2)
    rw [← h3] at hrow
    simp at hrow
    rw [hrow]
    decide
  exact ⟨hs, C3_no_raise_when_schema_ok tSucc hs⟩

/-- C4 counterexample: a status-true empty response resolves to the Failure
reason "No data", and a task whose transport always raises and exhausts its
retries resolves to the very same reason "No data", so the two reasons are
not distinct. -/
theorem C4_counterexample :
    download_symbol taskEmpty = .ok ("SENSEX2580100PE", none, some "No data") ∧
    (get_candles_with_retry emptyOracle).attempts = 1 ∧
    download_symbol errTask = .ok ("SENSEX2580200CE", none, some "No data") := by
  exact ⟨by decide, by decide, by decide⟩

/-- C4 amended: a fetch whose first response is status-true with no data
rows resolves to Failure "No data" after exactly one attempt and with no
backoff sleep, but the reason coincides with the reason recorded when a
transport error exhausts all retries, instead of being distinct from it. -/
theorem C4_empty_failure_reason (sym : String) (oracle : FetchOracle)
    (r0 : CandleResp) (h0 : oracle 0 = .ok (some r0)) (hst : r0.status = true)
    (hd : r0.data = []) :
    (get_candles_with_retry oracle).attempts = 1 ∧
    (get_candles_with_retry oracle).sleeps = [] ∧
    download_symbol ⟨sym, oracle⟩ = .ok (sym, none, some "No data") ∧
    (∀ oracle2 : FetchOracle,
      (∀ i, i < MAX_RETRIES → attemptFails (oracle2 i) = true) →
      download_symbol ⟨sym, oracle2⟩ = .ok (sym, none, some "No data")) := by
  have key : get_candles_with_retry oracle = ⟨some r0, 1, []⟩ := by
    show retryLoop oracle 0 MAX_RETRIES = _
    simp [MAX_RETRIES, retryLoop, h0, hst]
  refine ⟨by rw [key], by rw [key], ?_, ?_⟩
  · simp [download_symbol, key, hd]
  · intro oracle2 hf2
    simp [download_symbol, get_candles_fail_all oracle2 hf2]

/-- C4 witness: the concrete empty-response source next to the concrete
always-raising source. -/
theorem C4_witness :
    emptyOracle 0 = .ok (some ⟨true, []⟩) ∧
    (get_candles_with_retry emptyOracle).attempts = 1 ∧
    (get_candles_with_retry emptyOracle).sleeps = [] ∧
    download_symbol ⟨"SENSEX2580100PE", emptyOracle⟩ =
      .ok ("SENSEX2580100PE", none, some "No data") ∧
    download_symbol ⟨"SENSEX2580100PE", errOracle⟩ =
      .ok ("SENSEX2580100PE", none, some "No data") :=
  ⟨rfl,
   (C4_empty_failure_reason "SENSEX2580100PE" emptyOracle ⟨true, []⟩ rfl rfl rfl).1,
   (C4_empty_failure_reason "SENSEX2580100PE" emptyOracle ⟨true, []⟩ rfl rfl rfl).2.1,
   (C4_empty_failure_reason "SENSEX2580100PE" emptyOracle ⟨true, []⟩ rfl rfl rfl).2.2.1,
   (C4_empty_failure_reason "SENSEX2580100PE" emptyOracle ⟨true, []⟩ rfl rfl rfl).2.2.2
     errOracle (by decide)⟩

/-- C5: after a completed run over pairwise-distinct symbols the archive
holds exactly one entry named symbol ++ ".xlsx" for every symbol in
success_list and no entry for any symbol in failed_list. -/
theorem C5_archive_matches_successes (tasks : List Task) (st : RunState)
    (up : Bool) (hok : runMain tasks = .ok (st, up))
    (hn : (tasks.map Task.symbol).Nodup) :
    (∀ s ∈ st.success_list, (st.zipEntries.map Prod.fst).count (s ++ ".xlsx") = 1) ∧
    (∀ s ∈ st.failed_list, (st.zipEntries.map Prod.fst).count (s ++ ".xlsx") = 0) := by
  obtain ⟨os, _, hsucc, hfail, hzip, hsym, _, _⟩ := runMain_state tasks st up hok
  have hn2 : (symbolsOf os).Nodup := by rw [hsym]; exact hn
  obtain ⟨hnd1, _, hdisj⟩ := nodup_partition os hn2
  have hnames : st.zipEntries.map Prod.fst =
      (successesOf os).map (fun s => s ++ ".xlsx") := by
    rw [hzip]; exact entries_names os
  constructor
  · intro s hs
    rw [hsucc] at hs
    rw [hnames, count_map_xlsx]
    have hle : (successesOf os).count s ≤ 1 := List.nodup_iff_count_le_one.mp hnd1 s
    have hge : 0 < (successesOf os).count s := List.count_pos_iff.mpr hs
    omega
  · intro s hs
    rw [hfail] at hs
    rw [hnames, count_map_xlsx]
    by_contra hne
    have hpos : 0 < (successesOf os).count s := Nat.pos_of_ne_zero hne
    exact hdisj s (List.count_pos_iff.mp hpos) hs

/-- C5 witness: the archive of the two-task demo run. -/
theorem C5_witness :
    runMain demoTasks = .ok (demoFinal, true) ∧
    (demoTasks.map Task.symbol).Nodup ∧
    (demoFinal.zipEntries.map Prod.fst).count ("SENSEX2580000CE" ++ ".xlsx") = 1 ∧
    (demoFinal.zipEntries.map Prod.fst).count ("SENSEX2580000PE" ++ ".xlsx") = 0 :=
  ⟨by decide, by decide,
   (C5_archive_matches_successes demoTasks demoFinal true (by decide) (by decide)).1
     "SENSEX2580000CE" (by decide),
   (C5_archive_matches_successes demoTasks demoFinal true (by decide) (by decide)).2
     "SENSEX2580000PE" (by decide)⟩

/-- C6: send_zip_to_telegram is invoked exactly when success_list is
non-empty after all tasks resolve; an empty task list completes the run with
the initial (empty) state and no upload. -/
theorem C6_upload_iff_success (tasks : List Task) (st : RunState) (up : Bool)
    (hok : runMain tasks = .ok (st, up)) :
    (up = true ↔ st.success_list ≠ []) ∧
    (tasks = [] → st = initState ∧ up = false) := by
  obtain ⟨hl, hu⟩ := runMain_ok tasks st up hok
  constructor
  · rw [hu]
    simp [List.isEmpty_iff]
  · intro he
    subst he
    have hst : st = initState := by
      cases hl
      rfl
    subst hst
    exact ⟨rfl, by rw [hu]; rfl⟩

/-- C6 witness: the empty run performs no upload and the demo run uploads. -/
theorem C6_witness :
    runMain ([] : List Task) = .ok (initState, false) ∧
    (false = true ↔ initState.success_list ≠ []) ∧
    (true = true ↔ demoFinal.success_list ≠ []) :=
  ⟨by decide,
   (C6_upload_iff_success [] initState false (by decide)).1,
   (C6_upload_iff_success demoTasks demoFinal true (by decide)).1⟩

/-- The retrying session makes at most budget + 1 attempts beyond index i. -/
theorem runRetrySession_attempts_le (conf : RetryConf) (method : String)
    (oracle : Nat → UploadAttempt) :
    ∀ budget i, (runRetrySession conf method oracle budget i).2 ≤ i + budget + 1 := by
  intro budget
  induction budget with
  | zero =>
    intro i
    simp only [runRetrySession]
    cases ho : oracle i with
    | connError => simp
    | status s =>
      by_cases hr : is_retry conf method s = true
      · simp [hr]
      · simp [hr]
  | succ b ih =>
    intro i
    simp only [runRetrySession]
    cases ho : oracle i with
    | connError =>
      have := ih (i + 1)
      simp only []
      omega
    | status s =>
      by_cases hr : is_retry conf method s = true
      · have := ih (i + 1)
        simp only [hr, if_true]
        omega
      · simp [hr]

/-- Every attempt that was followed by another attempt is one the policy
retries: a connection error, or a status that is_retry accepts. -/
theorem runRetrySession_retried (conf : RetryConf) (method : String)
    (oracle : Nat → UploadAttempt) :
    ∀ budget i k, i ≤ k → k + 1 < (runRetrySession conf method oracle budget i).2 →
      retriedAttempt conf method (oracle k) = true := by
  intro budget
  induction budget with
  | zero =>
    intro i k hik h
    simp only [runRetrySession] at h
    cases ho : oracle i with
    | connError =>
      rw [ho] at h
      simp at h
      omega
    | status s =>
      rw [ho] at h
      by_cases hr : is_retry conf method s = true
      · simp [hr] at h
        omega
      · simp [hr] at h
        omega
  | succ b ih =>
    intro i k hik h
    simp only [runRetrySession] at h
    cases ho : oracle i with
    | connError =>
      by_cases hk : k = i
      · rw [hk, ho]
        rfl
      · rw [ho] at h
        exact ih (i + 1) k (by omega) h
    | status s =>
      rw [ho] at h
      by_cases hr : is_retry conf method s = true
      · by_cases hk : k = i
        · rw [hk, ho]
          simpa [retriedAttempt] using hr
        · simp only [hr, if_true] at h
          exact ih (i + 1) k (by omega) h
      · simp [hr] at h
        omega

/-- For the POST of send_zip_to_telegram no status response is ever
retried: POST is not in the default allowed methods, so is_retry rejects
every status and a retried attempt is necessarily a connection error. -/
theorem post_retried_is_connError (conf : RetryConf) (a : UploadAttempt)
    (h : retriedAttempt conf "POST" a = true) : a = .connError := by
  cases a with
  | connError => rfl
  | status s =>
    have hm : is_method_retryable "POST" = false := by decide
    simp [retriedAttempt, is_retry, hm] at h

/-- C7 counterexample: the configured session never status-retries the POST
upload, because POST is absent from urllib3's default allowed methods: an
endpoint that always answers 500 gets exactly one attempt and the 500 is
handed back unretried, so neither rate-limiting nor 5xx responses are
retried; and an endpoint whose connection always fails receives six
attempts (the initial request plus the five retries of Retry total 5), more
than the five the claim allows. -/
theorem C7_counterexample :
    sessionPost telegramRetry all500 = (.ok 500, 1) ∧
    sessionPost telegramRetry allConnErr = (.error (), 6) ∧
    ¬(sessionPost telegramRetry allConnErr).2 ≤ 5 := by
  exact ⟨by decide, by decide, by decide⟩

/-- C7 amended: the upload makes at most six attempts (one initial plus the
five retries of Retry total 5); an attempt that is followed by another one
is always a connection error, never a status response, since POST is not in
urllib3's default allowed methods and is_retry therefore rejects every
status — in particular the forcelisted rate-limit and 5xx statuses are
handed back after a single attempt and client-side statuses are likewise
never retried; between connection retries the backoff delays double
(factor 2). -/
theorem C7_upload_retry_policy (oracle : Nat → UploadAttempt) (k : Nat)
    (hk : k + 1 < (sessionPost telegramRetry oracle).2) :
    (sessionPost telegramRetry oracle).2 ≤ 6 ∧
    oracle k = .connError ∧
    is_method_retryable "POST" = false ∧
    (∀ s, is_retry telegramRetry "POST" s = false) ∧
    (∀ n, 2 ≤ n → n ≤ 4 →
      get_backoff_time telegramRetry (n + 1) = 2 * get_backoff_time telegramRetry n) := by
  have hle : (sessionPost telegramRetry oracle).2 ≤ 6 := by
    have := runRetrySession_attempts_le telegramRetry "POST" oracle telegramRetry.total 0
    simpa [sessionPost, telegramRetry] using this
  have hconn : oracle k = .connError :=
    post_retried_is_connError telegramRetry (oracle k)
      (runRetrySession_retried telegramRetry "POST" oracle telegramRetry.total 0 k
        (Nat.zero_le k) hk)
  have hm : is_method_retryable "POST" = false := by decide
  refine ⟨hle, hconn, hm, ?_, ?_⟩
  · intro s
    simp [is_retry, hm]
  · intro n hn2 hn4
    have hc : n = 2 ∨ n = 3 ∨ n = 4 := by omega
    rcases hc with h | h | h <;> subst h <;> decide

/-- C7 witness: the endpoint whose connection always fails. -/
theorem C7_witness :
    0 + 1 < (sessionPost telegramRetry allConnErr).2 ∧
    (sessionPost telegramRetry allConnErr).2 ≤ 6 ∧
    allConnErr 0 = .connError ∧
    is_method_retryable "POST" = false :=
  ⟨by decide,
   (C7_upload_retry_policy allConnErr 0 (by decide)).1,
   (C7_upload_retry_policy allConnErr 0 (by decide)).2.1,
   (C7_upload_retry_policy allConnErr 0 (by decide)).2.2.1⟩

/-- C8: whatever the endpoint does, send_zip_to_telegram creates the
temporary file once and removes it before returning: the successful upload,
the raise_for_status raise on an error status, and the raise after the
connection-retry budget is exhausted all exit through the finally block. -/
theorem C8_temp_removed (oracle : Nat → UploadAttempt) :
    (send_zip_to_telegram oracle).2 = [TmpEv.create, TmpEv.remove] := by
  unfold send_zip_to_telegram
  rcases sessionPost telegramRetry oracle with ⟨st, n⟩
  cases st with
  | error e => rfl
  | ok s =>
    by_cases h : 400 ≤ s
    · simp [h]
    · simp [h]

/-- A table entry for an index the schedule never completed is untouched. -/
theorem fillTable_not_mem (tasks : List Task) :
    ∀ (schedule : List Nat) (tb : Nat → Option DLResult) (j : Nat), j ∉ schedule →
      fillTable tasks schedule tb j = tb j := by
  intro schedule
  induction schedule with
  | nil => intro tb j h; rfl
  | cons a rest ih =>
    intro tb j h
    have hr : j ∉ rest := fun hm => h (List.mem_cons_of_mem a hm)
    have hja : j ≠ a := fun he => h (by rw [he]; exact List.mem_cons_self a rest)
    show fillTable tasks rest
        (Function.update tb a (some (download_symbol (tasks.getD a default)))) j = tb j
    rw [ih _ j hr, Function.update_noteq hja]

/-- A table entry for a completed index holds that task's own result,
whatever the completion order was. -/
theorem fillTable_mem (tasks : List Task) :
    ∀ (schedule : List Nat) (tb : Nat → Option DLResult) (j : Nat), j ∈ schedule →
      fillTable tasks schedule tb j = some (download_symbol (tasks.getD j default)) := by
  intro schedule
  induction schedule with
  | nil =>
    intro tb j h
    exact absurd h (List.not_mem_nil j)
  | cons a rest ih =>
    intro tb j h
    by_cases hr : j ∈ rest
    · exact ih _ j hr
    · have hja : j = a := by
        rcases List.mem_cons.mp h with h1 | h2
        · exact h1
        · exact absurd h2 hr
      subst hja
      show fillTable tasks rest
          (Function.update tb j (some (download_symbol (tasks.getD j default)))) j = _
      rw [fillTable_not_mem tasks rest _ j hr, Function.update_same]

/-- Once the schedule completed every task, what ex.map yields in input
order is exactly the sequential list of per-task results. -/
theorem concurrentResults_eq (tasks : List Task) (schedule : List Nat)
    (hcov : ∀ i, i < tasks.length → i ∈ schedule) :
    concurrentResults tasks schedule = tasks.map download_symbol := by
  apply List.ext_getElem
  · simp [concurrentResults]
  · intro i h1 h2
    have hi : i < tasks.length := by simpa using h2
    simp only [concurrentResults, List.getElem_map, List.getElem_range]
    rw [fillTable_mem tasks schedule emptyTable i (hcov i hi)]
    simp [List.getD, List.getElem?_eq_getElem hi]

/-- Consuming the mapped list of results is the sequential loop. -/
theorem pipelineLoopResults_map (tasks : List Task) :
    ∀ st, pipelineLoopResults st (tasks.map download_symbol) = pipelineLoop st tasks := by
  induction tasks with
  | nil => intro st; rfl
  | cons t rest ih =>
    intro st
    simp only [List.map_cons]
    cases hd : download_symbol t with
    | error e => simp [pipelineLoopResults, pipelineLoop, hd]
    | ok o => simp [pipelineLoopResults, pipelineLoop, hd, ih]

/-- C9: for every task list and every completion schedule that completes all
tasks, the concurrent pipeline produces exactly the same final state, and
hence the same success and failure lists and archive entries, as the
sequential execution in input order. -/
theorem C9_concurrent_refines_sequential (tasks : List Task) (schedule : List Nat)
    (hcov : ∀ i, i < tasks.length → i ∈ schedule) :
    concurrentMain tasks schedule = runMain tasks := by
  unfold concurrentMain runMain
  rw [concurrentResults_eq tasks schedule hcov, pipelineLoopResults_map]

/-- C9 witness: the demo run under the reversed completion schedule. -/
theorem C9_witness :
    (∀ i, i < demoTasks.length → i ∈ [1, 0]) ∧
    concurrentMain demoTasks [1, 0] = runMain demoTasks ∧
    runMain demoTasks = .ok (demoFinal, true) :=
  ⟨by decide,
   C9_concurrent_refines_sequential demoTasks [1, 0] (by decide),
   by decide⟩

/-- The coordinator's recording trace consists of mutations only: no lock is
ever acquired. -/
theorem coordTrace_all_mutate :
    ∀ (os : List Outcome) (e : SyncEv), e ∈ coordTrace os → isMutate e = true := by
  intro os
  induction os with
  | nil =>
    intro e h
    exact absurd h (List.not_mem_nil e)
  | cons o rest ih =>
    intro e h
    rcases List.mem_append.mp h with h1 | h2
    · rcases o with ⟨s, d, er⟩
      cases d with
      | none =>
        simp [recordEvents] at h1
        rcases h1 with h1 | h1 <;> subst h1 <;> rfl
      | some p =>
        simp [recordEvents] at h1
        rcases h1 with h1 | h1 <;> subst h1 <;> rfl
    · exact ih e h2

/-- C10 counterexample: in the one-task run that succeeds, the archive and
success_list mutations happen with zero locks held, so they are not inside
any critical section. -/
theorem C10_counterexample :
    runSyncTrace [tSucc] = some succTrace ∧ ¬mutationsGuarded succTrace := by
  exact ⟨by decide, by decide⟩

/-- C10 amended: no critical section is involved: the recording trace holds
mutations only (zip_lock and counter_lock are never acquired), and the
recording is serialized by the coordinator thread alone, so after any prefix
of k consumed results the joint invariant holds: counts sum to k, the archive
names are exactly the successes suffixed ".xlsx", and the lists are
duplicate-free and disjoint. -/
theorem C10_coordinator_serializes (tasks : List Task) (k : Nat) (st : RunState)
    (hn : (tasks.map Task.symbol).Nodup)
    (hok : pipelineLoop initState (tasks.take k) = .ok st) :
    (∀ os, outcomesOf tasks = some os → ∀ e ∈ coordTrace os, isMutate e = true) ∧
    st.success_list.length + st.failed_list.length = (tasks.take k).length ∧
    st.zipEntries.map Prod.fst = st.success_list.map (fun s => s ++ ".xlsx") ∧
    st.success_list.Nodup ∧ st.failed_list.Nodup ∧
    (∀ s, s ∈ st.success_list → s ∉ st.failed_list) := by
  obtain ⟨os, hos, hfold⟩ := pipelineLoop_ok (tasks.take k) initState st hok
  have hsym := outcomes_symbols (tasks.take k) os hos
  have hsucc : st.success_list = successesOf os := by
    rw [hfold, foldl_record_success]; rfl
  have hfail : st.failed_list = failuresOf os := by
    rw [hfold, foldl_record_failed]; rfl
  have hzip : st.zipEntries = entriesOf os := by
    rw [hfold, foldl_record_entries]; rfl
  have hsub : List.Sublist ((tasks.take k).map Task.symbol) (tasks.map Task.symbol) :=
    (List.take_sublist k tasks).map Task.symbol
  have hn2 : (symbolsOf os).Nodup := by
    rw [hsym]
    exact hn.sublist hsub
  obtain ⟨hnd1, hnd2, hdisj⟩ := nodup_partition os hn2
  have hlen : os.length = (tasks.take k).length := by
    have := congrArg List.length hsym
    simpa [symbolsOf] using this
  refine ⟨?_, ?_, ?_, ?_, ?_, ?_⟩
  · intro os2 _ e he
    exact coordTrace_all_mutate os2 e he
  · rw [hsucc, hfail, ← hlen]
    exact length_partition os
  · rw [hzip, hsucc]
    exact entries_names os
  · rw [hsucc]; exact hnd1
  · rw [hfail]; exact hnd2
  · intro s hs
    rw [hsucc] at hs
    rw [hfail]
    exact hdisj s hs

/-- C10 witness: the invariant after the first iteration of the demo run. -/
theorem C10_witness :
    (demoTasks.map Task.symbol).Nodup ∧
    pipelineLoop initState (demoTasks.take 1) = .ok midState ∧
    midState.success_list.length + midState.failed_list.length = (demoTasks.take 1).length ∧
    midState.zipEntries.map Prod.fst = midState.success_list.map (fun s => s ++ ".xlsx") :=
  ⟨by decide, by decide,
   (C10_coordinator_serializes demoTasks 1 midState (by decide) (by decide)).2.1,
   (C10_coordinator_serializes demoTasks 1 midState (by decide) (by decide)).2.2.1⟩

end SensexDL
